import Mathlib

/-!
# Verification of the faqBot session/escalation engine (`main.py`)

Shallow embedding of the stateful core of the bot:

* the support-reminder scheduler (`SUPPORT_PENDING`, `SUPPORT_REMINDER_TASKS`,
  `SUPPORT_REMINDER_COUNTS`, `SUPPORT_LANGS` and the functions
  `cancel_support_reminder`, `clear_support_pending`,
  `schedule_support_reminder`, `run_support_reminder`),
* the message lifecycle manager (`LAST_BOT_MESSAGE_ID`,
  `cleanup_previous_message`, `send_text`),
* the analytics event store (`record_event`),
* the language resolver (`detect_language_code`, `get_user_lang`,
  `get_localized_by_lang`) and the cancel-trigger set (`CANCEL_TRIGGERS`),
* the support-flow handlers (`support_start_callback`, `support_cancel`,
  `support_message`).

Python dicts are embedded as association lists with filter-based erase
(so a key occurs at most once by construction), sets as duplicate-free
lists, asyncio tasks as explicit task records with fresh numeric ids, and
each fallible gateway/database call takes an explicit Boolean/oracle
outcome.  The reminder loop is embedded as a step function
(`reminder_tick`, one wake-up of `run_support_reminder`), and the deferred
`finally` block of a cancelled task as a separate step
(`finalize_cancelled`), so that the interleavings the asyncio runtime
actually produces are all expressible.
-/

namespace FaqBot

/-- `(chat_id, user_id)` — the `support_key` of `main.py`. -/
abbrev Key := Int × Int

/-- First value bound to `k` in an association list (Python `d.get(k)`). -/
def alookup {α β : Type} [DecidableEq α] (k : α) : List (α × β) → Option β
  | [] => none
  | (a, b) :: t => if a = k then some b else alookup k t

/-- Remove every binding of `k` (Python `d.pop(k, None)` on a dict, where
`k` occurs at most once anyway). -/
def alErase {α β : Type} [DecidableEq α] (k : α) (l : List (α × β)) : List (α × β) :=
  l.filter (fun p => p.1 ≠ k)

/-- Bind `k` to `v`, replacing any previous binding (Python `d[k] = v`). -/
def alSet {α β : Type} [DecidableEq α] (k : α) (v : β) (l : List (α × β)) : List (α × β) :=
  (k, v) :: alErase k l

/-- Add to a set (Python `s.add(k)`). -/
def sadd {α : Type} [DecidableEq α] (k : α) (l : List α) : List α :=
  if k ∈ l then l else k :: l

/-- Remove from a set (Python `s.discard(k)`). -/
def sdiscard {α : Type} [DecidableEq α] (k : α) (l : List α) : List α :=
  l.filter (fun a => a ≠ k)

/-- Default of the `SUPPORT_REMINDER_MAX` environment variable. -/
def SUPPORT_REMINDER_MAX : Nat := 3

/-- The module-level mutable state of the escalation scheduler, plus an
explicit account of the asyncio reminder tasks.

* `pending`, `counts`, `langs`, `tasks` embed `SUPPORT_PENDING`,
  `SUPPORT_REMINDER_COUNTS`, `SUPPORT_LANGS` and `SUPPORT_REMINDER_TASKS`.
  `tasks` maps a key to the numeric id of the task stored for it.
* `live` holds the reminder tasks that are running and have never been
  cancelled (each still loops in `run_support_reminder`).
* `cancelling` holds tasks whose `Task.cancel()` has been requested but
  whose `except CancelledError` / `finally` block has not run yet — in
  asyncio that block runs only when the event loop next resumes the task.
* `events` records the reminder events appended via `record_event`
  (as `(key, count-after-increment)` pairs, mirroring the
  `{"user_id": ..., "count": count + 1}` payload).
* `nextId` supplies fresh task ids. -/
structure SupportState where
  pending : List Key
  counts : List (Key × Nat)
  langs : List (Key × String)
  tasks : List (Key × Nat)
  live : List (Nat × Key)
  cancelling : List (Nat × Key)
  events : List (Key × Nat)
  nextId : Nat
deriving DecidableEq

/-- Process start: every map empty. -/
def initState : SupportState :=
  ⟨[], [], [], [], [], [], [], 0⟩

/-- `cancel_support_reminder` (`main.py` 435–438):
`task = SUPPORT_REMINDER_TASKS.pop(key, None); if task: task.cancel()`.
Requesting cancellation moves the task from `live` to `cancelling`;
its `finally` block runs later (`finalize_cancelled`). -/
def cancel_support_reminder (s : SupportState) (key : Key) : SupportState :=
  match alookup key s.tasks with
  | none => s
  | some tid =>
    { s with
      tasks := alErase key s.tasks
      live := s.live.filter (fun p => p.1 ≠ tid)
      cancelling := s.cancelling ++ s.live.filter (fun p => p.1 = tid) }

/-- `clear_support_pending` (`main.py` 441–446): discard the pending flag,
pop the count and the language, then cancel the reminder task. -/
def clear_support_pending (s : SupportState) (key : Key) : SupportState :=
  cancel_support_reminder
    { s with
      pending := sdiscard key s.pending
      counts := alErase key s.counts
      langs := alErase key s.langs } key

/-- The first three statements of `schedule_support_reminder` (`main.py`
452–455): `SUPPORT_PENDING.add(key)`, `SUPPORT_LANGS[key] = lang`,
`cancel_support_reminder(key)`. -/
def schedCancel (s : SupportState) (key : Key) (lang : String) : SupportState :=
  cancel_support_reminder
    { s with pending := sadd key s.pending, langs := alSet key lang s.langs } key

/-- `schedCancel` plus `if key not in SUPPORT_REMINDER_COUNTS:
SUPPORT_REMINDER_COUNTS[key] = 0` (`main.py` 456–457) — the state reached
just before the count guard. -/
def schedPre (s : SupportState) (key : Key) (lang : String) : SupportState :=
  if (alookup key (schedCancel s key lang).counts).isNone then
    { schedCancel s key lang with
      counts := alSet key 0 (schedCancel s key lang).counts }
  else schedCancel s key lang

/-- `schedule_support_reminder` (`main.py` 449–462): after `schedPre`, if
`SUPPORT_REMINDER_COUNTS[key] >= SUPPORT_REMINDER_MAX` return; otherwise
create a fresh `run_support_reminder` task and store it in
`SUPPORT_REMINDER_TASKS[key]`. -/
def schedule_support_reminder (maxR : Nat) (s : SupportState) (key : Key)
    (lang : String) : SupportState :=
  if maxR ≤ (alookup key (schedPre s key lang).counts).getD 0 then schedPre s key lang
  else
    { schedPre s key lang with
      tasks := alSet key (schedPre s key lang).nextId (schedPre s key lang).tasks
      live := ((schedPre s key lang).nextId, key) :: (schedPre s key lang).live
      nextId := (schedPre s key lang).nextId + 1 }

/-- Stored reminder count for `key` (`SUPPORT_REMINDER_COUNTS.get(key, 0)`). -/
def countOf (s : SupportState) (key : Key) : Nat :=
  (alookup key s.counts).getD 0

/-- How one wake-up of the reminder loop ended. -/
inductive TickOutcome where
  /-- The named task is not running (already cancelled or finished); no
  wake-up happens. -/
  | notLive
  /-- `if key not in SUPPORT_PENDING: return` — the silent exit. -/
  | stopNotPending
  /-- `if count >= SUPPORT_REMINDER_MAX: return` — silent backoff. -/
  | stopMaxed
  /-- Reminder recorded and sent; the loop sleeps again. -/
  | sent
  /-- `send_text_by_chat` raised: the exception escapes the `while` loop,
  is caught by the outer `except Exception`, logged, and the coroutine
  returns. -/
  | stopSendFailed
deriving DecidableEq

/-- One wake-up of `run_support_reminder` (`main.py` 465–497) by live task
`tid` for `key`: the code between `await asyncio.sleep(...)` returning and
either the next sleep or the coroutine's exit.  `sendOk` is the outcome of
the `send_text_by_chat` gateway call.  On every exit path the `finally`
block executes `SUPPORT_REMINDER_TASKS.pop(support_key(chat_id, user_id),
None)` — it pops whatever task is now stored for `key`, not necessarily
`tid` itself.  (The `record_event` call never raises, see
`record_event` below; the reminder event is appended before the send, so a
failed send still leaves the event and the incremented count behind.) -/
def reminder_tick (maxR : Nat) (s : SupportState) (tid : Nat) (key : Key)
    (sendOk : Bool) : SupportState × TickOutcome :=
  if (tid, key) ∈ s.live then
    if key ∈ s.pending then
      if maxR ≤ countOf s key then
        ({ s with
            live := s.live.filter (fun p => p ≠ (tid, key))
            tasks := alErase key s.tasks }, .stopMaxed)
      else
        if sendOk then
          ({ s with
              counts := alSet key (countOf s key + 1) s.counts
              events := s.events ++ [(key, countOf s key + 1)] }, .sent)
        else
          ({ s with
              counts := alSet key (countOf s key + 1) s.counts
              events := s.events ++ [(key, countOf s key + 1)]
              live := s.live.filter (fun p => p ≠ (tid, key))
              tasks := alErase key s.tasks }, .stopSendFailed)
    else
      ({ s with
          live := s.live.filter (fun p => p ≠ (tid, key))
          tasks := alErase key s.tasks }, .stopNotPending)
  else (s, .notLive)

/-- The event loop resumes a cancelled task: `except asyncio.CancelledError:
return` followed by `finally: SUPPORT_REMINDER_TASKS.pop(key, None)`.
The pop removes whatever entry `key` currently has in the task map —
if the task was superseded, that entry belongs to its successor. -/
def finalize_cancelled (s : SupportState) (tid : Nat) (key : Key) : SupportState :=
  if (tid, key) ∈ s.cancelling then
    { s with
      cancelling := s.cancelling.filter (fun p => p ≠ (tid, key))
      tasks := alErase key s.tasks }
  else s

/-- The steps that act on the scheduler state: the three synchronous
entry points called by the handlers, one wake-up of a reminder loop, and
the deferred cleanup of a cancelled task. -/
inductive Op where
  | schedule (key : Key) (lang : String)
  | cancel (key : Key)
  | clearPending (key : Key)
  | tick (tid : Nat) (key : Key) (sendOk : Bool)
  | finalize (tid : Nat) (key : Key)
deriving DecidableEq

def applyOp (maxR : Nat) (s : SupportState) : Op → SupportState
  | .schedule key lang => schedule_support_reminder maxR s key lang
  | .cancel key => cancel_support_reminder s key
  | .clearPending key => clear_support_pending s key
  | .tick tid key sendOk => (reminder_tick maxR s tid key sendOk).1
  | .finalize tid key => finalize_cancelled s tid key

def applyOps (maxR : Nat) (ops : List Op) (s : SupportState) : SupportState :=
  ops.foldl (applyOp maxR) s

/-- Number of live (running, never-cancelled) reminder loops for `key`. -/
def liveFor (key : Key) (s : SupportState) : Nat :=
  (s.live.filter (fun p => p.2 = key)).length

/-- No deferred-cleanup step of a cancelled task occurs in `ops`. -/
def noFinalize (ops : List Op) : Bool :=
  ops.all fun op =>
    match op with
    | .finalize _ _ => false
    | _ => true

/-- Well-formedness of the scheduler state: every live task is the one
recorded for its key in the task map, task ids are below `nextId`, and
live task ids are pairwise distinct. -/
def Inv (s : SupportState) : Prop :=
  (∀ p ∈ s.live, alookup p.2 s.tasks = some p.1) ∧
  (∀ p ∈ s.live, p.1 < s.nextId) ∧
  s.live.Pairwise (fun p q => p.1 ≠ q.1)

/-- `key` has no pending flag, no stored count or language, and no task
map entry. -/
def keyAbsent (s : SupportState) (key : Key) : Prop :=
  key ∉ s.pending ∧ alookup key s.counts = none ∧
    alookup key s.langs = none ∧ alookup key s.tasks = none

/-- A concrete scheduler state with key `(1, 2)` pending at reminder
count 3 and a live task 7 — used to instantiate hypotheses of several
theorems below at a concrete input. -/
def sMax : SupportState :=
  ⟨[(1, 2)], [((1, 2), 3)], [((1, 2), "ru")], [((1, 2), 7)], [(7, (1, 2))], [], [], 8⟩

/-! ### Message lifecycle manager -/

/-- `LAST_BOT_MESSAGE_ID` plus a log of the gateway calls issued:
each delete attempt as `(chat_id, message_id)` and each sent message as
`(chat_id, message_id)`. -/
structure MsgState where
  lastId : List (Int × Nat)
  deletes : List (Int × Nat)
  sends : List (Int × Nat)
deriving DecidableEq

def initMsg : MsgState := ⟨[], [], []⟩

/-- `cleanup_previous_message` (`main.py` 367–378).  `_delOk` is the
outcome of the `bot.delete_message` call; the `try/except/finally` makes
the state update identical in both cases — the attempt is issued, a
failure only logs, and the ref is popped in `finally` — so the outcome is
unused.  Note the `if not chat_id` / `if not message_id` guards: Python
treats `0` as falsy, and the second one returns before the `try`, keeping
the ref. -/
def cleanup_previous_message (m : MsgState) (chatId : Int) (_delOk : Bool) : MsgState :=
  if chatId = 0 then m
  else
    match alookup chatId m.lastId with
    | none => m
    | some mid =>
      if mid = 0 then m
      else
        { m with
          deletes := m.deletes ++ [(chatId, mid)]
          lastId := alErase chatId m.lastId }

/-- `send_text` (`main.py` 381–391): clean up the previous bot message if
the inbound message has a chat, send the reply (the gateway assigns
`newId`), and if the message has a chat record the new id as the last bot
message.  (`send_text_by_chat`, 394–402, is the same without the chat
guards.) -/
def send_text (m : MsgState) (chat : Option Int) (newId : Nat) (delOk : Bool) : MsgState :=
  match chat with
  | some c =>
    { cleanup_previous_message m c delOk with
      sends := (cleanup_previous_message m c delOk).sends ++ [(c, newId)]
      lastId := alSet c newId (cleanup_previous_message m c delOk).lastId }
  | none => { m with sends := m.sends ++ [(0, newId)] }

/-- `N` consecutive `send_text` calls; each list entry carries the id the
gateway assigns to the new message and the outcome of the delete attempt
of that call. -/
def sendN (m : MsgState) (chat : Option Int) (ids : List (Nat × Bool)) : MsgState :=
  ids.foldl (fun acc p => send_text acc chat p.1 p.2) m

/-- Number of delete attempts issued for chat `c`. -/
def deletesFor (c : Int) (m : MsgState) : Nat :=
  (m.deletes.filter (fun p => p.1 = c)).length

/-! ### Event store -/

/-- Where the `try` block of `record_event` can fail. -/
inductive DbFail where
  | connect
  | insert
  | commit
deriving DecidableEq

/-- One row of the `events` table. -/
structure EventRow where
  ts : Nat
  eventType : String
  subject : Option String
  userId : Option Int
  username : Option String
  fullName : Option String
  chatId : Option Int
  payload : String
deriving DecidableEq

/-- The body of the `try` block of `record_event` (`main.py` 116–128):
`sqlite3.connect`, `INSERT`, `commit`.  A failure at any of the three
points raises, and a row whose transaction never commits is not durable,
so in every failing case the visible store is unchanged. -/
def append_row (db : List EventRow) (row : EventRow) (failAt : Option DbFail) :
    Except DbFail (List EventRow) :=
  match failAt with
  | some e => .error e
  | none => .ok (db ++ [row])

/-- `record_event` (`main.py` 102–131): run the append; `except
Exception:` catches any failure, logs it (`logger.exception`) and falls
through, so the caller always gets a normal return. -/
def record_event (db : List EventRow) (row : EventRow) (failAt : Option DbFail) :
    List EventRow :=
  match append_row db row failAt with
  | .ok db2 => db2
  | .error _ => db

/-! ### Language resolver and cancel triggers -/

/-- A Telegram user as the language resolver sees it. -/
structure TgUser where
  id : Int
  languageCode : Option String
deriving DecidableEq

/-- Python `str.lower` (and `str.casefold`, which agrees with it on the
alphabets involved here up to full-Unicode foldings Lean's core does not
implement): per-character `Char.toLower` over the string's characters.
What matters below is only that both sides of each comparison go through
the same function, exactly as in the source. -/
def lowerStr (sr : String) : String := ⟨sr.data.map Char.toLower⟩

/-- Python `str.startswith`, on the character lists. -/
def beginsWith (sr p : String) : Bool := p.data.isPrefixOf sr.data

/-- The tuple `("kk", "en", "ru")` hard-coded in `detect_language_code`. -/
def KNOWN_LANG_CODES : List String := ["kk", "en", "ru"]

/-- `detect_language_code` (`main.py` 259–266).  `defaultLang` is
`DEFAULT_LANG`; a missing user, a missing hint or an empty hint (falsy in
Python) gives the default; otherwise the lowered hint is matched with
`startswith` against the hard-coded codes, in order. -/
def detect_language_code (defaultLang : String) (user : Option TgUser) : String :=
  match user with
  | none => defaultLang
  | some u =>
    match u.languageCode with
    | none => defaultLang
    | some lc =>
      if lc = "" then defaultLang
      else
        match KNOWN_LANG_CODES.find? (fun p => beginsWith (lowerStr lc) p) with
        | some p => p
        | none => defaultLang

/-- `get_user_lang` (`main.py` 269–272): an explicit selection stored in
`USER_LANG` wins; otherwise detect from the hint. -/
def get_user_lang (userLang : List (Int × String)) (defaultLang : String)
    (user : Option TgUser) : String :=
  match user with
  | none => detect_language_code defaultLang none
  | some u =>
    match alookup u.id userLang with
    | some l => l
    | none => detect_language_code defaultLang (some u)

/-- `get_localized_by_lang` (`main.py` 275–279) over an abstract bundle
builder `build` (standing for `build_localized (TEXTS_BY_LANG[tag])`,
which is pure): a tag not in `TEXTS_BY_LANG` (`loaded`) is normalized to
`DEFAULT_LANG`, then the bundle is served from `LOCALIZED_CACHE`,
building and memoizing on first access.  Returns the updated cache and
the bundle. -/
def normalizeLang (loaded : List String) (defaultLang lang : String) : String :=
  if lang ∈ loaded then lang else defaultLang

def get_localized_by_lang {β : Type} (loaded : List String) (defaultLang : String)
    (build : String → β) (cache : List (String × β)) (lang : String) :
    List (String × β) × β :=
  match alookup (normalizeLang loaded defaultLang lang) cache with
  | some b => (cache, b)
  | none =>
    (alSet (normalizeLang loaded defaultLang lang)
      (build (normalizeLang loaded defaultLang lang)) cache,
     build (normalizeLang loaded defaultLang lang))

/-- Python `str.casefold`, embedded as `lowerStr`. -/
def casefold (sr : String) : String := lowerStr sr

/-- `CANCEL_TRIGGERS` (`main.py` 333–339): the casefolded
`support_cancel_trigger` message of every loaded language bundle that has
one (`triggers` lists that optional entry per loaded bundle), defaulting
to `{"cancel"}` when the set would otherwise be empty. -/
def mkCancelTriggers (triggers : List (Option String)) : List String :=
  if ((triggers.filterMap id).map casefold).isEmpty then ["cancel"]
  else (triggers.filterMap id).map casefold

/-! ### Session state machine handlers -/

/-- The aiogram FSM state of a session key: `Support.waiting_message`.
The cleared/default state (`Idle`) is the absence of an entry. -/
inductive FsmState where
  | waitingMessage
deriving DecidableEq

/-- The information content of `build_support_payload` (`main.py`
542–553): `str.format` renders the user id, the username (or the
unknown-subject fallback) and the message text (or the non-text fallback)
into the localized template; the template itself is data from the texts
files, so the payload is embedded as this triple. -/
structure SupportPayload where
  userId : Int
  username : Option String
  text : Option String
deriving DecidableEq

/-- The state the support-flow handlers touch: the per-key FSM storage
(aiogram `MemoryStorage`), the scheduler state, the stored language
selections (`USER_LANG`), and the payloads forwarded to the admin chat
(`bot.send_message(admin_chat_id, ...)`).  The ordinary gateway sends of
the handlers go through `send_text`, which is modelled by `MsgState`
above and therefore elided here. -/
structure BotState where
  fsm : List (Key × FsmState)
  sup : SupportState
  userLang : List (Int × String)
  forwards : List SupportPayload
deriving DecidableEq

/-- `support_start_callback` (`main.py` 695–711): set the FSM state to
`Support.waiting_message`, log the event, then send the prompt through
the gateway — `promptOk` is that `send_text` call's outcome.  When the
send returns, the handler clears any pending support state and schedules
the reminder (main.py 706–710); when it raises, the handler aborts
before those two calls, leaving the FSM state (set first) in place and
the scheduler untouched. -/
def support_start_callback (maxR : Nat) (b : BotState) (chatId : Int) (u : TgUser)
    (defaultLang : String) (promptOk : Bool) : BotState :=
  if promptOk then
    { b with
      fsm := alSet (chatId, u.id) FsmState.waitingMessage b.fsm
      sup := schedule_support_reminder maxR (clear_support_pending b.sup (chatId, u.id))
        (chatId, u.id) (get_user_lang b.userLang defaultLang (some u)) }
  else { b with fsm := alSet (chatId, u.id) FsmState.waitingMessage b.fsm }

/-- `support_cancel` (`main.py` 646–657): `state.clear()`, log the event,
clear the pending support state, confirm to the user. -/
def support_cancel (b : BotState) (chatId : Int) (u : TgUser) : BotState :=
  { b with
    fsm := alErase (chatId, u.id) b.fsm
    sup := clear_support_pending b.sup (chatId, u.id) }

/-- `support_message` (`main.py` 659–693).  `sendOk` is the outcome of
the branch's awaited gateway call.  A non-text message logs the event,
re-prompts (`send_text`, main.py 669–673) and — only when that send
returns — re-schedules the reminder (main.py 674–677).  A text message
logs the submission, clears the pending support state, then forwards the
payload to the admin chat with the unguarded `await bot.send_message` of
main.py 687: when it returns, `state.clear()` runs and the user is
thanked; when it raises, the handler aborts there — the pending flag has
already been cleared, but the FSM entry survives and no payload was
delivered to the admin chat. -/
def support_message (maxR : Nat) (b : BotState) (chatId : Int) (u : TgUser)
    (username : Option String) (defaultLang : String) (text : Option String)
    (sendOk : Bool) : BotState :=
  match text with
  | none =>
    if sendOk then
      { b with
        sup := schedule_support_reminder maxR b.sup (chatId, u.id)
          (get_user_lang b.userLang defaultLang (some u)) }
    else b
  | some t =>
    if sendOk then
      { b with
        sup := clear_support_pending b.sup (chatId, u.id)
        forwards := b.forwards ++ [⟨u.id, username, some t⟩]
        fsm := alErase (chatId, u.id) b.fsm }
    else { b with sup := clear_support_pending b.sup (chatId, u.id) }

/-- Router dispatch for an inbound message while the key's FSM state is
`Support.waiting_message`: the `support_cancel` handler is registered
first with the filter `F.text.casefold().in_(CANCEL_TRIGGERS)`, so a text
whose casefold is a trigger goes there; every other message reaches
`support_message`, whose gateway call gets outcome `sendOk`.
(`support_cancel` needs no oracle: its only send is the handler's last
await, after `state.clear()` and `clear_support_pending`, so its outcome
cannot skip any state effect.) -/
def dispatch_support (maxR : Nat) (triggers : List String) (b : BotState) (chatId : Int)
    (u : TgUser) (username : Option String) (defaultLang : String)
    (text : Option String) (sendOk : Bool) : BotState :=
  match text with
  | some t =>
    if casefold t ∈ triggers then support_cancel b chatId u
    else support_message maxR b chatId u username defaultLang (some t) sendOk
  | none => support_message maxR b chatId u username defaultLang none sendOk

/-- A concrete analytics row used in witnesses. -/
def rowEx : EventRow :=
  ⟨0, "support_reminder", none, some 2, none, none, some 1, "\x7b\x7d"⟩

/-- A concrete Telegram user used in witnesses. -/
def uEx : TgUser := ⟨2, some "en-US"⟩

/-- A concrete bot state used in witnesses: key `(1, 2)` is awaiting a
support message, its scheduler state is `sMax`, and user 2 has explicitly
selected Russian. -/
def bEx : BotState :=
  ⟨[((1, 2), FsmState.waitingMessage)], sMax, [(2, "ru")], []⟩

/-- Modelled from the spec: `ResolveLanguage(userId, hintCode)` — "if the
user has previously made an explicit selection, return it; else derive
from a locale hint code by matching known short prefixes (e.g., a
2-letter ISO code) against the set of loaded languages, falling back to a
configured default language if no match or no hint."  This definition
follows the spec's words (the loaded-language set is the match target);
it exists only to be compared with `get_user_lang`, which is translated
from the source. -/
def resolveLanguageSpec (loaded : List String) (defaultLang : String)
    (userLang : List (Int × String)) (user : Option TgUser) : String :=
  match user with
  | none => defaultLang
  | some u =>
    match alookup u.id userLang with
    | some l => l
    | none =>
      match u.languageCode with
      | none => defaultLang
      | some lc =>
        if lc = "" then defaultLang
        else
          match loaded.find? (fun tag => beginsWith (lowerStr lc) tag) with
          | some tag => tag
          | none => defaultLang

/-! ### Association-list and filter lemmas -/

theorem filter_idem {α : Type} (p : α → Bool) (l : List α) :
    (l.filter p).filter p = l.filter p := by
  induction l with
  | nil => rfl
  | cons a t ih =>
    by_cases h : p a
    · simp [List.filter_cons, h, ih]
    · simp [List.filter_cons, h, ih]

theorem alookup_cons {α β : Type} [DecidableEq α] (k : α) (p : α × β) (t : List (α × β)) :
    alookup k (p :: t) = if p.1 = k then some p.2 else alookup k t := rfl

theorem alookup_erase_self {α β : Type} [DecidableEq α] (k : α) (l : List (α × β)) :
    alookup k (alErase k l) = none := by
  induction l with
  | nil => rfl
  | cons p t ih =>
    by_cases h : p.1 = k
    · simpa [alErase, List.filter_cons, h] using ih
    · simpa [alErase, List.filter_cons, h, alookup_cons] using ih

theorem alookup_erase_ne {α β : Type} [DecidableEq α] {k k' : α} (h : k ≠ k')
    (l : List (α × β)) : alookup k (alErase k' l) = alookup k l := by
  induction l with
  | nil => rfl
  | cons p t ih =>
    by_cases hp : p.1 = k'
    · have hk : p.1 ≠ k := by rw [hp]; exact fun e => h e.symm
      rw [show alErase k' (p :: t) = alErase k' t by simp [alErase, List.filter_cons, hp],
        ih, alookup_cons, if_neg hk]
    · rw [show alErase k' (p :: t) = p :: alErase k' t by simp [alErase, List.filter_cons, hp],
        alookup_cons, alookup_cons, ih]

theorem alookup_set_self {α β : Type} [DecidableEq α] (k : α) (v : β) (l : List (α × β)) :
    alookup k (alSet k v l) = some v := by
  simp [alSet, alookup_cons]

theorem alookup_set_ne {α β : Type} [DecidableEq α] {k k' : α} (h : k ≠ k') (v : β)
    (l : List (α × β)) : alookup k (alSet k' v l) = alookup k l := by
  simp [alSet, alookup_cons, Ne.symm h, alookup_erase_ne h]

theorem alookup_eq_none {α β : Type} [DecidableEq α] {k : α} {l : List (α × β)} :
    alookup k l = none ↔ ∀ p ∈ l, p.1 ≠ k := by
  induction l with
  | nil => simp [alookup]
  | cons p t ih =>
    by_cases h : p.1 = k
    · simp [alookup_cons, h]
    · simp [alookup_cons, h, ih]

theorem alErase_of_lookup_none {α β : Type} [DecidableEq α] {k : α} {l : List (α × β)}
    (h : alookup k l = none) : alErase k l = l := by
  rw [alErase, List.filter_eq_self]
  intro p hp
  simpa using alookup_eq_none.mp h p hp

theorem sdiscard_of_not_mem {α : Type} [DecidableEq α] {k : α} {l : List α} (h : k ∉ l) :
    sdiscard k l = l := by
  rw [sdiscard, List.filter_eq_self]
  intro a ha
  have hak : a ≠ k := fun e => h (e ▸ ha)
  simpa using hak

theorem sdiscard_idem {α : Type} [DecidableEq α] (k : α) (l : List α) :
    sdiscard k (sdiscard k l) = sdiscard k l :=
  filter_idem _ _

theorem alErase_idem {α β : Type} [DecidableEq α] (k : α) (l : List (α × β)) :
    alErase k (alErase k l) = alErase k l :=
  filter_idem _ _

/-! ### Field lemmas for `cancel_support_reminder` -/

theorem cancel_counts (s : SupportState) (key : Key) :
    (cancel_support_reminder s key).counts = s.counts := by
  rcases h : alookup key s.tasks with _ | tid <;> simp [cancel_support_reminder, h]

theorem cancel_pending (s : SupportState) (key : Key) :
    (cancel_support_reminder s key).pending = s.pending := by
  rcases h : alookup key s.tasks with _ | tid <;> simp [cancel_support_reminder, h]

theorem cancel_langs (s : SupportState) (key : Key) :
    (cancel_support_reminder s key).langs = s.langs := by
  rcases h : alookup key s.tasks with _ | tid <;> simp [cancel_support_reminder, h]

theorem cancel_events (s : SupportState) (key : Key) :
    (cancel_support_reminder s key).events = s.events := by
  rcases h : alookup key s.tasks with _ | tid <;> simp [cancel_support_reminder, h]

theorem cancel_nextId (s : SupportState) (key : Key) :
    (cancel_support_reminder s key).nextId = s.nextId := by
  rcases h : alookup key s.tasks with _ | tid <;> simp [cancel_support_reminder, h]

theorem cancel_tasks_self (s : SupportState) (key : Key) :
    alookup key (cancel_support_reminder s key).tasks = none := by
  rcases h : alookup key s.tasks with _ | tid
  · simp [cancel_support_reminder, h]
  · simp [cancel_support_reminder, h, alookup_erase_self]

theorem cancel_tasks_ne (s : SupportState) {key k : Key} (h : k ≠ key) :
    alookup k (cancel_support_reminder s key).tasks = alookup k s.tasks := by
  rcases ht : alookup key s.tasks with _ | tid
  · simp [cancel_support_reminder, ht]
  · simp [cancel_support_reminder, ht, alookup_erase_ne h]

theorem cancel_eq_of_none {s : SupportState} {key : Key}
    (h : alookup key s.tasks = none) : cancel_support_reminder s key = s := by
  simp [cancel_support_reminder, h]

theorem cancel_eq_of_some {s : SupportState} {key : Key} {tid : Nat}
    (h : alookup key s.tasks = some tid) :
    cancel_support_reminder s key =
      { s with
        tasks := alErase key s.tasks
        live := s.live.filter (fun p => p.1 ≠ tid)
        cancelling := s.cancelling ++ s.live.filter (fun p => p.1 = tid) } := by
  simp [cancel_support_reminder, h]

/-! ### The at-most-one-live-timer invariant -/

theorem inv_initState : Inv initState := by
  refine ⟨?_, ?_, ?_⟩ <;> simp [initState, Inv]

theorem liveFor_le_one_of_inv {s : SupportState} (h : Inv s) (key : Key) :
    liveFor key s ≤ 1 := by
  obtain ⟨h1, -, h3⟩ := h
  unfold liveFor
  rcases hl : s.live.filter (fun p => p.2 = key) with _ | ⟨a, _ | ⟨b, t⟩⟩
  · simp [hl]
  · simp [hl]
  · exfalso
    have hpw : (s.live.filter (fun p => p.2 = key)).Pairwise (fun p q => p.1 ≠ q.1) :=
      List.Pairwise.sublist (List.filter_sublist _) h3
    rw [hl] at hpw
    have hab : a.1 ≠ b.1 := (List.pairwise_cons.mp hpw).1 b (by simp)
    have hamem : a ∈ s.live.filter (fun p => p.2 = key) := by rw [hl]; simp
    have hbmem : b ∈ s.live.filter (fun p => p.2 = key) := by rw [hl]; simp
    have ha := List.mem_filter.mp hamem
    have hb := List.mem_filter.mp hbmem
    have ha2 : a.2 = key := by simpa using ha.2
    have hb2 : b.2 = key := by simpa using hb.2
    have e1 := h1 a ha.1
    have e2 := h1 b hb.1
    rw [ha2] at e1
    rw [hb2] at e2
    exact hab (Option.some.inj (e1.symm.trans e2))

theorem cancel_live_not_key {s : SupportState}
    (h1 : ∀ p ∈ s.live, alookup p.2 s.tasks = some p.1) (key : Key) :
    ∀ p ∈ (cancel_support_reminder s key).live, p.2 ≠ key := by
  intro p hp e
  rcases ht : alookup key s.tasks with _ | tid
  · rw [cancel_eq_of_none ht] at hp
    have hx := h1 p hp
    rw [e, ht] at hx
    exact Option.noConfusion hx
  · rw [cancel_eq_of_some ht] at hp
    have hmem := List.mem_filter.mp hp
    have hne : p.1 ≠ tid := by simpa using hmem.2
    have hx := h1 p hmem.1
    rw [e, ht] at hx
    exact hne (Option.some.inj hx).symm

theorem inv_cancel {s : SupportState} (h : Inv s) (key : Key) :
    Inv (cancel_support_reminder s key) := by
  obtain ⟨h1, h2, h3⟩ := h
  rcases ht : alookup key s.tasks with _ | tid
  · rw [cancel_eq_of_none ht]; exact ⟨h1, h2, h3⟩
  · rw [cancel_eq_of_some ht]
    refine ⟨?_, ?_, ?_⟩
    · intro p hp
      have hmem := List.mem_filter.mp hp
      have hne : p.1 ≠ tid := by simpa using hmem.2
      have hpk : p.2 ≠ key := by
        intro e
        have hx := h1 p hmem.1
        rw [e, ht] at hx
        exact hne (Option.some.inj hx).symm
      rw [alookup_erase_ne hpk]
      exact h1 p hmem.1
    · intro p hp
      exact h2 p (List.mem_filter.mp hp).1
    · exact List.Pairwise.sublist (List.filter_sublist _) h3

theorem inv_clear {s : SupportState} (h : Inv s) (key : Key) :
    Inv (clear_support_pending s key) := by
  unfold clear_support_pending
  refine inv_cancel ?_ key
  exact ⟨h.1, h.2.1, h.2.2⟩

/-! ### Field lemmas for `schedCancel`, `schedPre`, `schedule_support_reminder` -/

theorem schedCancel_counts (s : SupportState) (key : Key) (lang : String) :
    (schedCancel s key lang).counts = s.counts := by
  unfold schedCancel
  exact cancel_counts _ key

theorem schedCancel_pending (s : SupportState) (key : Key) (lang : String) :
    (schedCancel s key lang).pending = sadd key s.pending := by
  unfold schedCancel
  exact cancel_pending _ key

theorem schedCancel_langs (s : SupportState) (key : Key) (lang : String) :
    (schedCancel s key lang).langs = alSet key lang s.langs := by
  unfold schedCancel
  exact cancel_langs _ key

theorem schedCancel_nextId (s : SupportState) (key : Key) (lang : String) :
    (schedCancel s key lang).nextId = s.nextId := by
  unfold schedCancel
  exact cancel_nextId _ key

theorem schedCancel_events (s : SupportState) (key : Key) (lang : String) :
    (schedCancel s key lang).events = s.events := by
  unfold schedCancel
  exact cancel_events _ key

theorem schedPre_live (s : SupportState) (key : Key) (lang : String) :
    (schedPre s key lang).live = (schedCancel s key lang).live := by
  unfold schedPre
  by_cases hin : (alookup key (schedCancel s key lang).counts).isNone
  · rw [if_pos hin]
  · rw [if_neg hin]

theorem schedPre_tasks (s : SupportState) (key : Key) (lang : String) :
    (schedPre s key lang).tasks = (schedCancel s key lang).tasks := by
  unfold schedPre
  by_cases hin : (alookup key (schedCancel s key lang).counts).isNone
  · rw [if_pos hin]
  · rw [if_neg hin]

theorem schedPre_pending (s : SupportState) (key : Key) (lang : String) :
    (schedPre s key lang).pending = sadd key s.pending := by
  unfold schedPre
  by_cases hin : (alookup key (schedCancel s key lang).counts).isNone
  · rw [if_pos hin]; exact schedCancel_pending s key lang
  · rw [if_neg hin]; exact schedCancel_pending s key lang

theorem schedPre_langs (s : SupportState) (key : Key) (lang : String) :
    (schedPre s key lang).langs = alSet key lang s.langs := by
  unfold schedPre
  by_cases hin : (alookup key (schedCancel s key lang).counts).isNone
  · rw [if_pos hin]; exact schedCancel_langs s key lang
  · rw [if_neg hin]; exact schedCancel_langs s key lang

theorem schedPre_nextId (s : SupportState) (key : Key) (lang : String) :
    (schedPre s key lang).nextId = s.nextId := by
  unfold schedPre
  by_cases hin : (alookup key (schedCancel s key lang).counts).isNone
  · rw [if_pos hin]; exact schedCancel_nextId s key lang
  · rw [if_neg hin]; exact schedCancel_nextId s key lang

theorem schedPre_counts_key (s : SupportState) (key : Key) (lang : String) :
    alookup key (schedPre s key lang).counts = some (countOf s key) := by
  unfold schedPre
  by_cases hin : (alookup key (schedCancel s key lang).counts).isNone
  · rw [if_pos hin]
    have h0 : alookup key s.counts = none := by
      rw [schedCancel_counts] at hin
      exact Option.isNone_iff_eq_none.mp hin
    show alookup key (alSet key 0 (schedCancel s key lang).counts) = some (countOf s key)
    rw [alookup_set_self]
    simp [countOf, h0]
  · rw [if_neg hin]
    rw [schedCancel_counts] at hin ⊢
    rcases hc : alookup key s.counts with _ | c
    · rw [hc] at hin; simp at hin
    · simp [countOf, hc]

theorem schedPre_counts_ne (s : SupportState) {key k : Key} (lang : String) (h : k ≠ key) :
    alookup k (schedPre s key lang).counts = alookup k s.counts := by
  unfold schedPre
  by_cases hin : (alookup key (schedCancel s key lang).counts).isNone
  · rw [if_pos hin]
    show alookup k (alSet key 0 (schedCancel s key lang).counts) = alookup k s.counts
    rw [alookup_set_ne h, schedCancel_counts]
  · rw [if_neg hin, schedCancel_counts]

theorem schedPre_live_not_key {s : SupportState}
    (h1 : ∀ p ∈ s.live, alookup p.2 s.tasks = some p.1) (key : Key) (lang : String) :
    ∀ p ∈ (schedPre s key lang).live, p.2 ≠ key := by
  rw [schedPre_live]
  unfold schedCancel
  refine cancel_live_not_key ?_ key
  exact h1

theorem schedPre_tasks_key (s : SupportState) (key : Key) (lang : String) :
    alookup key (schedPre s key lang).tasks = none := by
  rw [schedPre_tasks]
  unfold schedCancel
  exact cancel_tasks_self _ key

theorem schedPre_inv {s : SupportState} (h : Inv s) (key : Key) (lang : String) :
    Inv (schedPre s key lang) := by
  have h2 : Inv (schedCancel s key lang) := by
    unfold schedCancel
    refine inv_cancel ?_ key
    exact ⟨h.1, h.2.1, h.2.2⟩
  unfold schedPre
  by_cases hin : (alookup key (schedCancel s key lang).counts).isNone
  · rw [if_pos hin]; exact ⟨h2.1, h2.2.1, h2.2.2⟩
  · rw [if_neg hin]; exact h2

theorem schedule_eq_of_maxed {maxR : Nat} {s : SupportState} {key : Key} (lang : String)
    (h : maxR ≤ countOf s key) :
    schedule_support_reminder maxR s key lang = schedPre s key lang := by
  unfold schedule_support_reminder
  rw [schedPre_counts_key]
  rw [if_pos (by simpa using h)]

theorem schedule_eq_of_lt {maxR : Nat} {s : SupportState} {key : Key} (lang : String)
    (h : countOf s key < maxR) :
    schedule_support_reminder maxR s key lang =
      { schedPre s key lang with
        tasks := alSet key (schedPre s key lang).nextId (schedPre s key lang).tasks
        live := ((schedPre s key lang).nextId, key) :: (schedPre s key lang).live
        nextId := (schedPre s key lang).nextId + 1 } := by
  unfold schedule_support_reminder
  rw [schedPre_counts_key]
  rw [if_neg (by simpa using Nat.not_le.mpr h)]

theorem inv_schedule {s : SupportState} (h : Inv s) (maxR : Nat) (key : Key) (lang : String) :
    Inv (schedule_support_reminder maxR s key lang) := by
  have hpre := schedPre_inv h key lang
  by_cases hle : maxR ≤ countOf s key
  · rw [schedule_eq_of_maxed lang hle]; exact hpre
  · rw [schedule_eq_of_lt lang (Nat.not_le.mp hle)]
    have hnk := schedPre_live_not_key h.1 key lang
    refine ⟨?_, ?_, ?_⟩
    · intro p hp
      rcases List.mem_cons.mp hp with rfl | hp2
      · exact alookup_set_self _ _ _
      · rw [alookup_set_ne (hnk p hp2)]
        exact hpre.1 p hp2
    · intro p hp
      rcases List.mem_cons.mp hp with rfl | hp2
      · exact Nat.lt_succ_self _
      · exact Nat.lt_succ_of_lt (hpre.2.1 p hp2)
    · refine List.pairwise_cons.mpr ⟨?_, hpre.2.2⟩
      intro q hq
      exact Nat.ne_of_gt (hpre.2.1 q hq)

theorem inv_stop {s : SupportState} (h : Inv s) {tid : Nat} {key : Key}
    (hl : (tid, key) ∈ s.live) :
    Inv { s with
          live := s.live.filter (fun p => p ≠ (tid, key))
          tasks := alErase key s.tasks } := by
  obtain ⟨h1, h2, h3⟩ := h
  refine ⟨?_, ?_, ?_⟩
  · intro p hp
    have hmem := List.mem_filter.mp hp
    have hne : p ≠ (tid, key) := by simpa using hmem.2
    have hpk : p.2 ≠ key := by
      intro e
      have e1 := h1 p hmem.1
      have e2 : alookup key s.tasks = some tid := h1 (tid, key) hl
      rw [e] at e1
      have hpt : p.1 = tid := Option.some.inj (e1.symm.trans e2)
      exact hne (by rw [← hpt, ← e])
    rw [alookup_erase_ne hpk]
    exact h1 p hmem.1
  · intro p hp
    exact h2 p (List.mem_filter.mp hp).1
  · exact List.Pairwise.sublist (List.filter_sublist _) h3

theorem inv_tick {s : SupportState} (h : Inv s) (maxR tid : Nat) (key : Key) (sendOk : Bool) :
    Inv (reminder_tick maxR s tid key sendOk).1 := by
  unfold reminder_tick
  by_cases hl : (tid, key) ∈ s.live
  · rw [if_pos hl]
    by_cases hp : key ∈ s.pending
    · rw [if_pos hp]
      by_cases hm : maxR ≤ countOf s key
      · rw [if_pos hm]
        exact inv_stop h hl
      · rw [if_neg hm]
        by_cases hok : sendOk = true
        · rw [if_pos hok]
          exact ⟨h.1, h.2.1, h.2.2⟩
        · rw [if_neg hok]
          exact inv_stop ⟨h.1, h.2.1, h.2.2⟩ hl
    · rw [if_neg hp]
      exact inv_stop h hl
  · rw [if_neg hl]
    exact h

theorem inv_applyOp {s : SupportState} (h : Inv s) (maxR : Nat) (op : Op)
    (hop : ∀ tid key, op ≠ .finalize tid key) : Inv (applyOp maxR s op) := by
  cases op with
  | schedule key lang => exact inv_schedule h maxR key lang
  | cancel key => exact inv_cancel h key
  | clearPending key => exact inv_clear h key
  | tick tid key sendOk => exact inv_tick h maxR tid key sendOk
  | finalize tid key => exact absurd rfl (hop tid key)

theorem inv_applyOps {s : SupportState} (h : Inv s) (maxR : Nat) (ops : List Op)
    (hnf : noFinalize ops = true) : Inv (applyOps maxR ops s) := by
  induction ops generalizing s with
  | nil => exact h
  | cons op t ih =>
    rw [noFinalize, List.all_cons, Bool.and_eq_true] at hnf
    obtain ⟨hop, ht⟩ := hnf
    have hop2 : ∀ tid key, op ≠ Op.finalize tid key := by
      intro tid key e
      subst e
      simp at hop
    exact ih (inv_applyOp h maxR op hop2) ht

/-! ### The reminder-count bound -/

theorem countOf_cancel (s : SupportState) (key k : Key) :
    countOf (cancel_support_reminder s key) k = countOf s k := by
  unfold countOf
  rw [cancel_counts]

theorem countOf_clear (s : SupportState) (key k : Key) :
    countOf (clear_support_pending s key) k = if k = key then 0 else countOf s k := by
  unfold clear_support_pending countOf
  rw [cancel_counts]
  by_cases e : k = key
  · rw [if_pos e]
    subst e
    show (alookup k (alErase k s.counts)).getD 0 = 0
    rw [alookup_erase_self]
    rfl
  · rw [if_neg e]
    show (alookup k (alErase key s.counts)).getD 0 = (alookup k s.counts).getD 0
    rw [alookup_erase_ne e]

theorem countOf_schedule (maxR : Nat) (s : SupportState) (key : Key) (lang : String)
    (k : Key) : countOf (schedule_support_reminder maxR s key lang) k = countOf s k := by
  have hpre : countOf (schedPre s key lang) k = countOf s k := by
    by_cases e : k = key
    · subst e
      unfold countOf
      rw [schedPre_counts_key]
      rfl
    · unfold countOf
      rw [schedPre_counts_ne s lang e]
  by_cases hle : maxR ≤ countOf s key
  · rw [schedule_eq_of_maxed lang hle]; exact hpre
  · rw [schedule_eq_of_lt lang (Nat.not_le.mp hle)]; exact hpre

theorem countOf_set_inc {maxR : Nat} {s : SupportState} {key : Key}
    (hm : ¬ maxR ≤ countOf s key) (k : Key) (h : countOf s k ≤ maxR) :
    (alookup k (alSet key (countOf s key + 1) s.counts)).getD 0 ≤ maxR := by
  by_cases e : k = key
  · subst e
    rw [alookup_set_self]
    exact Nat.succ_le_of_lt (Nat.not_le.mp hm)
  · rw [alookup_set_ne e]
    exact h

theorem countOf_tick_le {maxR : Nat} {s : SupportState} (tid : Nat) (key : Key) (ok : Bool)
    (k : Key) (h : countOf s k ≤ maxR) :
    countOf (reminder_tick maxR s tid key ok).1 k ≤ maxR := by
  unfold reminder_tick
  by_cases hl : (tid, key) ∈ s.live
  · rw [if_pos hl]
    by_cases hp : key ∈ s.pending
    · rw [if_pos hp]
      by_cases hm : maxR ≤ countOf s key
      · rw [if_pos hm]; exact h
      · rw [if_neg hm]
        by_cases hok : ok = true
        · rw [if_pos hok]
          exact countOf_set_inc hm k h
        · rw [if_neg hok]
          exact countOf_set_inc hm k h
    · rw [if_neg hp]; exact h
  · rw [if_neg hl]; exact h

theorem countOf_finalize (s : SupportState) (tid : Nat) (key k : Key) :
    countOf (finalize_cancelled s tid key) k = countOf s k := by
  unfold finalize_cancelled
  by_cases hc : (tid, key) ∈ s.cancelling
  · rw [if_pos hc]; rfl
  · rw [if_neg hc]

theorem countOf_applyOp_le {maxR : Nat} {s : SupportState} (op : Op)
    (h : ∀ k2, countOf s k2 ≤ maxR) (k : Key) :
    countOf (applyOp maxR s op) k ≤ maxR := by
  cases op with
  | schedule key lang =>
    show countOf (schedule_support_reminder maxR s key lang) k ≤ maxR
    rw [countOf_schedule]; exact h k
  | cancel key =>
    show countOf (cancel_support_reminder s key) k ≤ maxR
    rw [countOf_cancel]; exact h k
  | clearPending key =>
    show countOf (clear_support_pending s key) k ≤ maxR
    rw [countOf_clear]
    by_cases e : k = key
    · rw [if_pos e]; exact Nat.zero_le _
    · rw [if_neg e]; exact h k
  | tick tid key ok =>
    exact countOf_tick_le tid key ok k (h k)
  | finalize tid key =>
    show countOf (finalize_cancelled s tid key) k ≤ maxR
    rw [countOf_finalize]; exact h k

theorem countOf_applyOps_le (maxR : Nat) (ops : List Op) (k : Key) :
    countOf (applyOps maxR ops initState) k ≤ maxR := by
  suffices hgen : ∀ s : SupportState, (∀ k2, countOf s k2 ≤ maxR) →
      ∀ k2, countOf (applyOps maxR ops s) k2 ≤ maxR by
    refine hgen initState ?_ k
    intro k2
    simp [countOf, initState, alookup]
  induction ops with
  | nil => intro s hs k2; exact hs k2
  | cons op t ih =>
    intro s hs k2
    exact ih (applyOp maxR s op) (fun k3 => countOf_applyOp_le op hs k3) k2

/-! ### Key uniqueness of the timer map -/

theorem nodup_fst_alErase {α β : Type} [DecidableEq α] {l : List (α × β)}
    (h : (l.map Prod.fst).Nodup) (k : α) : ((alErase k l).map Prod.fst).Nodup :=
  List.Nodup.sublist (List.Sublist.map Prod.fst (List.filter_sublist _)) h

theorem nodup_fst_alSet {α β : Type} [DecidableEq α] {l : List (α × β)}
    (h : (l.map Prod.fst).Nodup) (k : α) (v : β) :
    ((alSet k v l).map Prod.fst).Nodup := by
  rw [alSet, List.map_cons]
  refine List.nodup_cons.mpr ⟨?_, nodup_fst_alErase h k⟩
  intro hk
  obtain ⟨p, hp, he⟩ := List.mem_map.mp hk
  have h2 := (List.mem_filter.mp hp).2
  simp at h2
  exact h2 he

theorem tick_tasks_cases (maxR : Nat) (s : SupportState) (tid : Nat) (key : Key) (ok : Bool) :
    (reminder_tick maxR s tid key ok).1.tasks = s.tasks ∨
    (reminder_tick maxR s tid key ok).1.tasks = alErase key s.tasks := by
  unfold reminder_tick
  by_cases hl : (tid, key) ∈ s.live
  · rw [if_pos hl]
    by_cases hp : key ∈ s.pending
    · rw [if_pos hp]
      by_cases hm : maxR ≤ countOf s key
      · rw [if_pos hm]; right; rfl
      · rw [if_neg hm]
        by_cases hok : ok = true
        · rw [if_pos hok]; left; rfl
        · rw [if_neg hok]; right; rfl
    · rw [if_neg hp]; right; rfl
  · rw [if_neg hl]; left; rfl

theorem finalize_tasks_cases (s : SupportState) (tid : Nat) (key : Key) :
    (finalize_cancelled s tid key).tasks = s.tasks ∨
    (finalize_cancelled s tid key).tasks = alErase key s.tasks := by
  unfold finalize_cancelled
  by_cases hc : (tid, key) ∈ s.cancelling
  · rw [if_pos hc]; right; rfl
  · rw [if_neg hc]; left; rfl

theorem cancel_tasks_cases (s : SupportState) (key : Key) :
    (cancel_support_reminder s key).tasks = s.tasks ∨
    (cancel_support_reminder s key).tasks = alErase key s.tasks := by
  rcases ht : alookup key s.tasks with _ | tid
  · left; rw [cancel_eq_of_none ht]
  · right; rw [cancel_eq_of_some ht]

theorem clear_tasks_cases (s : SupportState) (key : Key) :
    (clear_support_pending s key).tasks = s.tasks ∨
    (clear_support_pending s key).tasks = alErase key s.tasks := by
  unfold clear_support_pending
  have h := cancel_tasks_cases
    { s with
      pending := sdiscard key s.pending
      counts := alErase key s.counts
      langs := alErase key s.langs } key
  exact h

theorem schedPre_tasks_cases (s : SupportState) (key : Key) (lang : String) :
    (schedPre s key lang).tasks = s.tasks ∨
    (schedPre s key lang).tasks = alErase key s.tasks := by
  rw [schedPre_tasks]
  unfold schedCancel
  exact cancel_tasks_cases _ key

theorem tasksNodup_applyOp {maxR : Nat} {s : SupportState}
    (h : (s.tasks.map Prod.fst).Nodup) (op : Op) :
    ((applyOp maxR s op).tasks.map Prod.fst).Nodup := by
  cases op with
  | schedule key lang =>
    show ((schedule_support_reminder maxR s key lang).tasks.map Prod.fst).Nodup
    have hpre : ((schedPre s key lang).tasks.map Prod.fst).Nodup := by
      rcases schedPre_tasks_cases s key lang with he | he
      · rw [he]; exact h
      · rw [he]; exact nodup_fst_alErase h key
    by_cases hle : maxR ≤ countOf s key
    · rw [schedule_eq_of_maxed lang hle]; exact hpre
    · rw [schedule_eq_of_lt lang (Nat.not_le.mp hle)]
      exact nodup_fst_alSet hpre key _
  | cancel key =>
    show ((cancel_support_reminder s key).tasks.map Prod.fst).Nodup
    rcases cancel_tasks_cases s key with he | he
    · rw [he]; exact h
    · rw [he]; exact nodup_fst_alErase h key
  | clearPending key =>
    show ((clear_support_pending s key).tasks.map Prod.fst).Nodup
    rcases clear_tasks_cases s key with he | he
    · rw [he]; exact h
    · rw [he]; exact nodup_fst_alErase h key
  | tick tid key ok =>
    show ((reminder_tick maxR s tid key ok).1.tasks.map Prod.fst).Nodup
    rcases tick_tasks_cases maxR s tid key ok with he | he
    · rw [he]; exact h
    · rw [he]; exact nodup_fst_alErase h key
  | finalize tid key =>
    show ((finalize_cancelled s tid key).tasks.map Prod.fst).Nodup
    rcases finalize_tasks_cases s tid key with he | he
    · rw [he]; exact h
    · rw [he]; exact nodup_fst_alErase h key

theorem tasksNodup_applyOps (maxR : Nat) (ops : List Op) :
    ((applyOps maxR ops initState).tasks.map Prod.fst).Nodup := by
  suffices hgen : ∀ s : SupportState, (s.tasks.map Prod.fst).Nodup →
      ((applyOps maxR ops s).tasks.map Prod.fst).Nodup by
    exact hgen initState (by simp [initState])
  induction ops with
  | nil => intro s hs; exact hs
  | cons op t ih =>
    intro s hs
    exact ih (applyOp maxR s op) (tasksNodup_applyOp hs op)

/-! ### Claim C2 -/

/-- C2 (counterexample): the at-most-one-live-timer invariant fails on
the code.  `schedule_support_reminder` for key `(1, 2)` arms task 0; a
second schedule cancels task 0 (removing its map entry) and arms task 1;
when the event loop later resumes the cancelled task 0, its `finally:
SUPPORT_REMINDER_TASKS.pop(key, None)` removes task 1's map entry (task 1
stays live but unmapped); a third schedule then finds no task to cancel
and arms task 2 while task 1 is still live — two live, never-cancelled
reminder loops for the same key. -/
theorem two_live_timers_cex :
    liveFor (1, 2)
      (applyOps 3
        [Op.schedule (1, 2) "ru", Op.schedule (1, 2) "en",
         Op.finalize 0 (1, 2), Op.schedule (1, 2) "ru"] initState) = 2 := by
  decide

/-- C2 (amended): as long as no deferred cleanup of a superseded task
runs (the `finally` block of a cancelled `run_support_reminder`), the
scheduler keeps at most one live reminder loop per key — `Schedule`
cancels the mapped task before installing a fresh one; and the timer map
itself (a dict) holds at most one entry per key along arbitrary
interleavings, deferred cleanups included. -/
theorem at_most_one_live_timer (maxR : Nat) (ops : List Op) (key : Key) :
    (noFinalize ops = true → liveFor key (applyOps maxR ops initState) ≤ 1) ∧
    ((applyOps maxR ops initState).tasks.map Prod.fst).Nodup :=
  ⟨fun hnf => liveFor_le_one_of_inv (inv_applyOps inv_initState maxR ops hnf) key,
   tasksNodup_applyOps maxR ops⟩

/-- Witness for `at_most_one_live_timer`: a run with two supersedes and a
cancel for one key, with no deferred cleanup step. -/
theorem at_most_one_live_timer_witness :
    noFinalize [Op.schedule (1, 2) "ru", Op.schedule (1, 2) "en",
      Op.cancel (1, 2)] = true ∧
    liveFor (1, 2) (applyOps 3 [Op.schedule (1, 2) "ru", Op.schedule (1, 2) "en",
      Op.cancel (1, 2)] initState) ≤ 1 ∧
    ((applyOps 3 [Op.schedule (1, 2) "ru", Op.schedule (1, 2) "en",
      Op.cancel (1, 2)] initState).tasks.map Prod.fst).Nodup :=
  ⟨by decide,
   (at_most_one_live_timer 3 [Op.schedule (1, 2) "ru", Op.schedule (1, 2) "en",
      Op.cancel (1, 2)] (1, 2)).1 (by decide),
   (at_most_one_live_timer 3 [Op.schedule (1, 2) "ru", Op.schedule (1, 2) "en",
      Op.cancel (1, 2)] (1, 2)).2⟩

/-! ### Claim C3 -/

/-- C3: along any interleaving of handler calls, loop wake-ups and task
cleanups starting at process start, the stored reminder count of every
key never exceeds `SUPPORT_REMINDER_MAX`; and a wake-up that finds the
count at (or past) the max terminates the loop — it appends no reminder
event, leaves the pending flag exactly as it was (still set until
explicitly cleared), and removes the task from the live set. -/
theorem reminder_count_bounded (maxR : Nat) (ops : List Op) (key : Key) :
    countOf (applyOps maxR ops initState) key ≤ maxR ∧
    (∀ s tid ok, maxR ≤ countOf s key →
      (reminder_tick maxR s tid key ok).1.events = s.events ∧
      (reminder_tick maxR s tid key ok).1.pending = s.pending ∧
      (tid, key) ∉ (reminder_tick maxR s tid key ok).1.live) := by
  constructor
  · exact countOf_applyOps_le maxR ops key
  · intro s tid ok hmax
    unfold reminder_tick
    by_cases hl : (tid, key) ∈ s.live
    · rw [if_pos hl]
      by_cases hp : key ∈ s.pending
      · rw [if_pos hp, if_pos hmax]
        refine ⟨rfl, rfl, ?_⟩
        intro hmem
        have h2 := (List.mem_filter.mp hmem).2
        simp at h2
      · rw [if_neg hp]
        refine ⟨rfl, rfl, ?_⟩
        intro hmem
        have h2 := (List.mem_filter.mp hmem).2
        simp at h2
    · rw [if_neg hl]
      exact ⟨rfl, rfl, hl⟩

/-- Witness for `reminder_count_bounded`: a run that schedules and ticks
key `(1, 2)` once, and the maxed-out state `sMax` (count 3 = max) for
the second conjunct. -/
theorem reminder_count_bounded_witness :
    countOf (applyOps 3 [Op.schedule (1, 2) "ru", Op.tick 0 (1, 2) true]
      initState) (1, 2) ≤ 3 ∧
    (reminder_tick 3 sMax 7 (1, 2) true).1.events = sMax.events ∧
    (reminder_tick 3 sMax 7 (1, 2) true).1.pending = sMax.pending ∧
    (7, (1, 2)) ∉ (reminder_tick 3 sMax 7 (1, 2) true).1.live :=
  ⟨(reminder_count_bounded 3 [Op.schedule (1, 2) "ru", Op.tick 0 (1, 2) true] (1, 2)).1,
   (reminder_count_bounded 3 [Op.schedule (1, 2) "ru", Op.tick 0 (1, 2) true] (1, 2)).2
     sMax 7 true (by decide)⟩

/-! ### Claim C1 -/

/-- C1 (counterexample): a single failed reminder send ends the loop.
After one `schedule_support_reminder` for key `(1, 2)` (task 0 armed,
count 0, pending), a wake-up whose `send_text_by_chat` raises produces
`stopSendFailed`: the `try/except Exception` of `run_support_reminder`
wraps the whole `while` loop, so the exception escapes the loop, is
logged once, the coroutine returns, and the `finally` pops the task —
no live loop and no task-map entry remain, while the key is still
pending with count 1.  The claim says the loop would continue to its
next sleep cycle; instead the reminder series for the key has ended. -/
theorem send_failure_ends_loop_cex :
    (reminder_tick 3 (applyOps 3 [Op.schedule (1, 2) "ru"] initState) 0 (1, 2) false).2 =
      TickOutcome.stopSendFailed ∧
    (reminder_tick 3 (applyOps 3 [Op.schedule (1, 2) "ru"] initState) 0 (1, 2)
      false).1.live = [] ∧
    alookup (1, 2) (reminder_tick 3 (applyOps 3 [Op.schedule (1, 2) "ru"] initState) 0
      (1, 2) false).1.tasks = none ∧
    (1, 2) ∈ (reminder_tick 3 (applyOps 3 [Op.schedule (1, 2) "ru"] initState) 0 (1, 2)
      false).1.pending ∧
    (reminder_tick 3 (applyOps 3 [Op.schedule (1, 2) "ru"] initState) 0 (1, 2)
      false).1.events = [((1, 2), 1)] := by
  decide

/-- C1 (amended): a failure while sending a reminder is caught outside
the `while` loop and logged, never propagated — but it terminates the
reminder loop rather than letting it sleep again: the task leaves the
live set and pops the key's task-map entry; the count increment and the
reminder event of the failed attempt are still recorded, and the pending
flag remains exactly as it was. -/
theorem send_failure_terminates_loop (maxR : Nat) (s : SupportState) (tid : Nat) (key : Key)
    (hl : (tid, key) ∈ s.live) (hp : key ∈ s.pending) (hm : countOf s key < maxR) :
    (reminder_tick maxR s tid key false).2 = TickOutcome.stopSendFailed ∧
    (tid, key) ∉ (reminder_tick maxR s tid key false).1.live ∧
    alookup key (reminder_tick maxR s tid key false).1.tasks = none ∧
    (reminder_tick maxR s tid key false).1.pending = s.pending ∧
    countOf (reminder_tick maxR s tid key false).1 key = countOf s key + 1 ∧
    (reminder_tick maxR s tid key false).1.events =
      s.events ++ [(key, countOf s key + 1)] := by
  have hnm : ¬ maxR ≤ countOf s key := Nat.not_le.mpr hm
  unfold reminder_tick
  rw [if_pos hl, if_pos hp, if_neg hnm, if_neg Bool.false_ne_true]
  refine ⟨rfl, ?_, ?_, rfl, ?_, rfl⟩
  · intro hmem
    have h2 := (List.mem_filter.mp hmem).2
    simp at h2
  · exact alookup_erase_self key s.tasks
  · show (alookup key (alSet key (countOf s key + 1) s.counts)).getD 0 = countOf s key + 1
    rw [alookup_set_self]
    rfl

/-- Witness for `send_failure_terminates_loop` at the state reached by
one schedule of key `(1, 2)`. -/
theorem send_failure_terminates_loop_witness :
    (reminder_tick 3 (applyOps 3 [Op.schedule (1, 2) "ru"] initState) 0 (1, 2) false).2 =
      TickOutcome.stopSendFailed ∧
    (0, ((1, 2) : Key)) ∉ (reminder_tick 3 (applyOps 3 [Op.schedule (1, 2) "ru"] initState)
      0 (1, 2) false).1.live ∧
    alookup (1, 2) (reminder_tick 3 (applyOps 3 [Op.schedule (1, 2) "ru"] initState) 0
      (1, 2) false).1.tasks = none ∧
    (reminder_tick 3 (applyOps 3 [Op.schedule (1, 2) "ru"] initState) 0 (1, 2)
      false).1.pending = (applyOps 3 [Op.schedule (1, 2) "ru"] initState).pending ∧
    countOf (reminder_tick 3 (applyOps 3 [Op.schedule (1, 2) "ru"] initState) 0 (1, 2)
      false).1 (1, 2) = countOf (applyOps 3 [Op.schedule (1, 2) "ru"] initState) (1, 2) + 1 ∧
    (reminder_tick 3 (applyOps 3 [Op.schedule (1, 2) "ru"] initState) 0 (1, 2)
      false).1.events = (applyOps 3 [Op.schedule (1, 2) "ru"] initState).events ++
      [((1, 2), countOf (applyOps 3 [Op.schedule (1, 2) "ru"] initState) (1, 2) + 1)] :=
  send_failure_terminates_loop 3 _ 0 (1, 2) (by decide) (by decide) (by decide)

/-! ### Claim C10 -/

theorem cancel_live_sub (s : SupportState) (key : Key) :
    ∀ p ∈ (cancel_support_reminder s key).live, p ∈ s.live := by
  intro p hp
  rcases ht : alookup key s.tasks with _ | tid
  · rw [cancel_eq_of_none ht] at hp
    exact hp
  · rw [cancel_eq_of_some ht] at hp
    exact (List.mem_filter.mp hp).1

/-- C10: when `schedule_support_reminder` runs for a key whose stored
count has already reached `SUPPORT_REMINDER_MAX`, it still marks the key
pending and records its language, cancels the mapped task (the key's
task-map entry is gone), but arms no new timer — `nextId` is unchanged
and the live set only shrinks — and preserves the stored count; and if
every live loop for the key is the mapped one, no live loop for the key
remains. -/
theorem schedule_at_max (maxR : Nat) (s : SupportState) (key : Key) (lang : String)
    (c : Nat) (hc : alookup key s.counts = some c) (hmax : maxR ≤ c) :
    key ∈ (schedule_support_reminder maxR s key lang).pending ∧
    alookup key (schedule_support_reminder maxR s key lang).langs = some lang ∧
    alookup key (schedule_support_reminder maxR s key lang).tasks = none ∧
    alookup key (schedule_support_reminder maxR s key lang).counts = some c ∧
    (schedule_support_reminder maxR s key lang).nextId = s.nextId ∧
    (∀ p ∈ (schedule_support_reminder maxR s key lang).live, p ∈ s.live) ∧
    ((∀ p ∈ s.live, alookup p.2 s.tasks = some p.1) →
      ∀ p ∈ (schedule_support_reminder maxR s key lang).live, p.2 ≠ key) := by
  have hcnt : countOf s key = c := by
    unfold countOf
    rw [hc]
    rfl
  have hle : maxR ≤ countOf s key := by rw [hcnt]; exact hmax
  rw [schedule_eq_of_maxed lang hle]
  refine ⟨?_, ?_, ?_, ?_, ?_, ?_, ?_⟩
  · rw [schedPre_pending]
    unfold sadd
    by_cases hmem : key ∈ s.pending
    · rw [if_pos hmem]; exact hmem
    · rw [if_neg hmem]; exact List.mem_cons_self _ _
  · rw [schedPre_langs]
    exact alookup_set_self _ _ _
  · exact schedPre_tasks_key s key lang
  · rw [schedPre_counts_key, hcnt]
  · exact schedPre_nextId s key lang
  · intro p hp
    rw [schedPre_live] at hp
    unfold schedCancel at hp
    exact cancel_live_sub
      { s with pending := sadd key s.pending, langs := alSet key lang s.langs } key p hp
  · intro h1 p hp
    rw [schedPre_live] at hp
    unfold schedCancel at hp
    refine cancel_live_not_key ?_ key p hp
    exact h1

/-- Witness for `schedule_at_max` at the maxed-out state `sMax`
(count 3 = max, task 7 armed). -/
theorem schedule_at_max_witness :
    ((1, 2) : Key) ∈ (schedule_support_reminder 3 sMax (1, 2) "en").pending ∧
    alookup (1, 2) (schedule_support_reminder 3 sMax (1, 2) "en").langs = some "en" ∧
    alookup (1, 2) (schedule_support_reminder 3 sMax (1, 2) "en").tasks = none ∧
    alookup (1, 2) (schedule_support_reminder 3 sMax (1, 2) "en").counts = some 3 ∧
    (schedule_support_reminder 3 sMax (1, 2) "en").nextId = sMax.nextId := by
  obtain ⟨h1, h2, h3, h4, h5, -, -⟩ :=
    schedule_at_max 3 sMax (1, 2) "en" 3 (by decide) (by decide)
  exact ⟨h1, h2, h3, h4, h5⟩

/-! ### Claim C9 -/

theorem cancel_idem (s : SupportState) (key : Key) :
    cancel_support_reminder (cancel_support_reminder s key) key =
      cancel_support_reminder s key :=
  cancel_eq_of_none (cancel_tasks_self s key)

theorem clear_idem (s : SupportState) (key : Key) :
    clear_support_pending (clear_support_pending s key) key =
      clear_support_pending s key := by
  have hp : (clear_support_pending s key).pending = sdiscard key s.pending := by
    unfold clear_support_pending
    rw [cancel_pending]
  have hcnt : (clear_support_pending s key).counts = alErase key s.counts := by
    unfold clear_support_pending
    rw [cancel_counts]
  have hlg : (clear_support_pending s key).langs = alErase key s.langs := by
    unfold clear_support_pending
    rw [cancel_langs]
  have htk : alookup key (clear_support_pending s key).tasks = none := by
    unfold clear_support_pending
    exact cancel_tasks_self _ key
  have hXs : ({ clear_support_pending s key with
      pending := sdiscard key (clear_support_pending s key).pending
      counts := alErase key (clear_support_pending s key).counts
      langs := alErase key (clear_support_pending s key).langs } : SupportState) =
      clear_support_pending s key := by
    rw [hp, hcnt, hlg, sdiscard_idem, alErase_idem, alErase_idem]
    rw [← hp, ← hcnt, ← hlg]
  show cancel_support_reminder
    { clear_support_pending s key with
      pending := sdiscard key (clear_support_pending s key).pending
      counts := alErase key (clear_support_pending s key).counts
      langs := alErase key (clear_support_pending s key).langs } key =
    clear_support_pending s key
  rw [hXs]
  exact cancel_eq_of_none htk

theorem clear_noop (s : SupportState) (key : Key) (h : keyAbsent s key) :
    clear_support_pending s key = s := by
  obtain ⟨h1, h2, h3, h4⟩ := h
  show cancel_support_reminder
    { s with
      pending := sdiscard key s.pending
      counts := alErase key s.counts
      langs := alErase key s.langs } key = s
  rw [sdiscard_of_not_mem h1, alErase_of_lookup_none h2, alErase_of_lookup_none h3]
  exact cancel_eq_of_none h4

/-- C9: `clear_support_pending` and `cancel_support_reminder` are
idempotent — a second call leaves exactly the state of the first, with
the pending flag gone, the count entry removed (count back to 0), the
language removed and the task cancelled — and on a key that has no
pending state and no armed task either call is a no-op; both are total
functions, so neither can fail. -/
theorem clear_cancel_idempotent (s : SupportState) (key : Key) :
    clear_support_pending (clear_support_pending s key) key =
      clear_support_pending s key ∧
    cancel_support_reminder (cancel_support_reminder s key) key =
      cancel_support_reminder s key ∧
    (keyAbsent s key →
      clear_support_pending s key = s ∧ cancel_support_reminder s key = s) :=
  ⟨clear_idem s key, cancel_idem s key,
   fun h => ⟨clear_noop s key h, cancel_eq_of_none h.2.2.2⟩⟩

/-- Witness for `clear_cancel_idempotent`: idempotence at the busy state
`sMax`, and the no-op clause at the empty initial state. -/
theorem clear_cancel_idempotent_witness :
    (clear_support_pending (clear_support_pending sMax (1, 2)) (1, 2) =
      clear_support_pending sMax (1, 2)) ∧
    (cancel_support_reminder (cancel_support_reminder sMax (1, 2)) (1, 2) =
      cancel_support_reminder sMax (1, 2)) ∧
    keyAbsent initState (1, 2) ∧
    clear_support_pending initState (1, 2) = initState ∧
    cancel_support_reminder initState (1, 2) = initState := by
  have hKA : keyAbsent initState (1, 2) := ⟨by simp [initState], rfl, rfl, rfl⟩
  exact ⟨(clear_cancel_idempotent sMax (1, 2)).1,
    (clear_cancel_idempotent sMax (1, 2)).2.1, hKA,
    ((clear_cancel_idempotent initState (1, 2)).2.2 hKA).1,
    ((clear_cancel_idempotent initState (1, 2)).2.2 hKA).2⟩

/-! ### Claim C5 -/

theorem send_text_step (c : Int) (hc : c ≠ 0) (i : Nat) (hi : i ≠ 0)
    (d sends : List (Int × Nat)) (j : Nat) (ok : Bool) :
    send_text ⟨[(c, i)], d, sends⟩ (some c) j ok =
      ⟨[(c, j)], d ++ [(c, i)], sends ++ [(c, j)]⟩ := by
  have hclean : cleanup_previous_message ⟨[(c, i)], d, sends⟩ c ok =
      ⟨[], d ++ [(c, i)], sends⟩ := by
    simp [cleanup_previous_message, alookup_cons, hc, hi, alErase]
  simp [send_text, hclean, alSet, alErase]

theorem sendN_from_single (c : Int) (hc : c ≠ 0) :
    ∀ (ids : List (Nat × Bool)), (∀ p ∈ ids, p.1 ≠ 0) →
      ∀ (i : Nat), i ≠ 0 → ∀ (d sends : List (Int × Nat)),
      (sendN ⟨[(c, i)], d, sends⟩ (some c) ids).lastId =
        [(c, (ids.map Prod.fst).getLastD i)] ∧
      deletesFor c (sendN ⟨[(c, i)], d, sends⟩ (some c) ids) =
        (d.filter (fun p => p.1 = c)).length + ids.length := by
  intro ids
  induction ids with
  | nil =>
    intro hids i hi d sends
    exact ⟨rfl, by simp [sendN, deletesFor]⟩
  | cons hd rest ih =>
    intro hids i hi d sends
    have hstep : sendN ⟨[(c, i)], d, sends⟩ (some c) (hd :: rest) =
        sendN ⟨[(c, hd.1)], d ++ [(c, i)], sends ++ [(c, hd.1)]⟩ (some c) rest := by
      show sendN (send_text ⟨[(c, i)], d, sends⟩ (some c) hd.1 hd.2) (some c) rest =
        sendN ⟨[(c, hd.1)], d ++ [(c, i)], sends ++ [(c, hd.1)]⟩ (some c) rest
      rw [send_text_step c hc i hi d sends hd.1 hd.2]
    have hhd : hd.1 ≠ 0 := hids hd (List.mem_cons_self hd rest)
    have hrest : ∀ p ∈ rest, p.1 ≠ 0 := fun p hp => hids p (List.mem_cons_of_mem hd hp)
    obtain ⟨hL, hD⟩ := ih hrest hd.1 hhd (d ++ [(c, i)]) (sends ++ [(c, hd.1)])
    rw [hstep]
    constructor
    · rw [hL, List.map_cons, List.getLastD_cons]
    · rw [hD]
      simp [List.filter_append, hc]
      omega

/-- C5: starting from a chat with no recorded bot message, `N`
consecutive `send_text` calls to chat `c` (each entry carrying the id the
gateway assigns to the new message and the outcome of that call's delete
attempt) leave exactly the last sent id as `LAST_BOT_MESSAGE_ID[c]` (no
ref when `N = 0`) and issue exactly `N - 1` delete attempts — one per
send after the first; the ref is cleared and overwritten regardless of
each delete attempt's outcome, which the statement exhibits by
quantifying over the outcomes. -/
theorem sendN_replacing (c : Int) (ids : List (Nat × Bool)) (hc : c ≠ 0)
    (hids : ∀ p ∈ ids, p.1 ≠ 0) :
    (sendN initMsg (some c) ids).lastId =
      ((ids.map Prod.fst).getLast?.map (fun i => (c, i))).toList ∧
    deletesFor c (sendN initMsg (some c) ids) = ids.length - 1 := by
  cases ids with
  | nil => exact ⟨rfl, rfl⟩
  | cons hd rest =>
    have hhd : hd.1 ≠ 0 := hids hd (List.mem_cons_self hd rest)
    have hrest : ∀ p ∈ rest, p.1 ≠ 0 := fun p hp => hids p (List.mem_cons_of_mem hd hp)
    have h1 : send_text initMsg (some c) hd.1 hd.2 = ⟨[(c, hd.1)], [], [(c, hd.1)]⟩ := by
      simp [send_text, cleanup_previous_message, initMsg, alookup, hc, alSet, alErase]
    have hstep : sendN initMsg (some c) (hd :: rest) =
        sendN ⟨[(c, hd.1)], [], [(c, hd.1)]⟩ (some c) rest := by
      show sendN (send_text initMsg (some c) hd.1 hd.2) (some c) rest =
        sendN ⟨[(c, hd.1)], [], [(c, hd.1)]⟩ (some c) rest
      rw [h1]
    obtain ⟨hL, hD⟩ := sendN_from_single c hc rest hrest hd.1 hhd [] [(c, hd.1)]
    rw [hstep]
    constructor
    · rw [hL, List.map_cons, List.getLast?_cons, List.getLastD_eq_getLast?]
      rfl
    · rw [hD]
      simp

/-- Witness for `sendN_replacing`: three sends to chat 5 with message ids
10, 11, 12, the middle delete attempt failing. -/
theorem sendN_replacing_witness :
    (sendN initMsg (some 5) [(10, true), (11, false), (12, true)]).lastId =
      ((([(10, true), (11, false), (12, true)] : List (Nat × Bool)).map
        Prod.fst).getLast?.map (fun i => ((5 : Int), i))).toList ∧
    deletesFor 5 (sendN initMsg (some 5) [(10, true), (11, false), (12, true)]) =
      ([(10, true), (11, false), (12, true)] : List (Nat × Bool)).length - 1 :=
  sendN_replacing 5 [(10, true), (11, false), (12, true)] (by decide) (by decide)

/-! ### Claim C6 -/

/-- C6: appending an analytics event never propagates a failure to the
caller — `record_event` is a total function whose `try` body is run
behind an `except Exception` catch-all: on any failure point (connect,
insert, commit) it logs, leaves the store unchanged and returns
normally, and on success it appends exactly the one row; the user-facing
interaction that called it is therefore never aborted. -/
theorem record_event_total (db : List EventRow) (row : EventRow) (failAt : Option DbFail) :
    (∀ e, failAt = some e → record_event db row failAt = db) ∧
    (failAt = none → record_event db row failAt = db ++ [row]) := by
  constructor
  · intro e he
    subst he
    rfl
  · intro he
    subst he
    rfl

/-- Witness for `record_event_total`: a failing commit leaves the store
unchanged; a clean run appends the row. -/
theorem record_event_total_witness :
    record_event [] rowEx (some DbFail.commit) = [] ∧
    record_event [] rowEx none = [] ++ [rowEx] :=
  ⟨(record_event_total [] rowEx (some DbFail.commit)).1 DbFail.commit rfl,
   (record_event_total [] rowEx none).2 rfl⟩

/-! ### Claim C7 -/

/-- C7: cancel-trigger matching is case-insensitive and matches against
the union of the loaded languages' cancel phrases: any text whose
casefold equals the casefold of any loaded bundle's
`support_cancel_trigger` is in `CANCEL_TRIGGERS`, and the router then
dispatches it to `support_cancel` for every bot state — in particular
for every stored language selection of the user, since the filter
`F.text.casefold().in_(CANCEL_TRIGGERS)` never consults the user's
language. -/
theorem cancel_trigger_union (maxR : Nat) (bundles : List (Option String)) (trig : String)
    (hmem : some trig ∈ bundles) (text : String) (hcf : casefold text = casefold trig) :
    casefold text ∈ mkCancelTriggers bundles ∧
    ∀ (b : BotState) (chatId : Int) (u : TgUser) (username : Option String)
      (defaultLang : String) (sendOk : Bool),
      dispatch_support maxR (mkCancelTriggers bundles) b chatId u username defaultLang
        (some text) sendOk = support_cancel b chatId u := by
  have hmem2 : casefold trig ∈ (bundles.filterMap id).map casefold :=
    List.mem_map_of_mem casefold (List.mem_filterMap.mpr ⟨some trig, hmem, rfl⟩)
  have hne : ((bundles.filterMap id).map casefold).isEmpty = false := by
    cases hmap : (bundles.filterMap id).map casefold with
    | nil => rw [hmap] at hmem2; exact absurd hmem2 (List.not_mem_nil _)
    | cons a l => rfl
  have hin : casefold trig ∈ mkCancelTriggers bundles := by
    unfold mkCancelTriggers
    rw [if_neg (by simp [hne])]
    exact hmem2
  have htext : casefold text ∈ mkCancelTriggers bundles := by
    rw [hcf]
    exact hin
  refine ⟨htext, ?_⟩
  intro b chatId u username defaultLang sendOk
  show (if casefold text ∈ mkCancelTriggers bundles then support_cancel b chatId u
    else support_message maxR b chatId u username defaultLang (some text) sendOk) =
    support_cancel b chatId u
  rw [if_pos htext]

/-- Witness for `cancel_trigger_union`: bundles loading one trigger
"Cancel" (stored casefolded), text "cANCEL", at the concrete state
`bEx` where the user's stored selection is Russian. -/
theorem cancel_trigger_union_witness :
    casefold "cANCEL" ∈ mkCancelTriggers [none, some "Cancel"] ∧
    dispatch_support 3 (mkCancelTriggers [none, some "Cancel"]) bEx 1 uEx none "ru"
      (some "cANCEL") true = support_cancel bEx 1 uEx :=
  ⟨(cancel_trigger_union 3 [none, some "Cancel"] "Cancel" (by decide) "cANCEL"
      (by decide)).1,
   (cancel_trigger_union 3 [none, some "Cancel"] "Cancel" (by decide) "cANCEL"
      (by decide)).2 bEx 1 uEx none "ru" true⟩

/-! ### Claim C8 -/

/-- C8 (counterexample): with the Azerbaijani bundle loaded and a user
whose locale hint is "az" and who made no explicit selection, resolving
per the spec (match the hint against the set of loaded languages) yields
"az", but `get_user_lang` / `detect_language_code` match only the
hard-coded codes ("kk", "en", "ru") — the loaded-language set plays no
part — and fall back to the default "ru". -/
theorem resolve_language_cex :
    get_user_lang [] "ru" (some ⟨7, some "az"⟩) = "ru" ∧
    resolveLanguageSpec ["ru", "az"] "ru" [] (some ⟨7, some "az"⟩) = "az" ∧
    ("ru" : String) ≠ "az" := by
  decide

/-- C8 (amended): an explicit stored selection is returned as-is;
otherwise the language is derived from the locale hint by matching its
lowering against the fixed code list ("kk", "en", "ru") — not against
the loaded languages — with the configured default when there is no
hint, an empty hint, or no match; and content lookup normalizes a tag
with no loaded content to the default language's tag, building and
memoizing the bundle on first access. -/
theorem resolve_language_code {β : Type} (loaded : List String) (defaultLang : String)
    (userLang : List (Int × String)) (u : TgUser) (build : String → β)
    (cache : List (String × β)) (lang : String) :
    (∀ l, alookup u.id userLang = some l →
      get_user_lang userLang defaultLang (some u) = l) ∧
    (alookup u.id userLang = none →
      get_user_lang userLang defaultLang (some u) =
        detect_language_code defaultLang (some u)) ∧
    (∀ lc, u.languageCode = some lc → lc ≠ "" →
      ∀ p, KNOWN_LANG_CODES.find? (fun q => beginsWith (lowerStr lc) q) = some p →
        detect_language_code defaultLang (some u) = p) ∧
    (∀ lc, u.languageCode = some lc → lc ≠ "" →
      KNOWN_LANG_CODES.find? (fun q => beginsWith (lowerStr lc) q) = none →
        detect_language_code defaultLang (some u) = defaultLang) ∧
    (u.languageCode = none → detect_language_code defaultLang (some u) = defaultLang) ∧
    (lang ∉ loaded →
      get_localized_by_lang loaded defaultLang build cache lang =
        get_localized_by_lang loaded defaultLang build cache defaultLang) ∧
    (∀ c2 bb, get_localized_by_lang loaded defaultLang build cache lang = (c2, bb) →
      get_localized_by_lang loaded defaultLang build c2 lang = (c2, bb)) := by
  refine ⟨?_, ?_, ?_, ?_, ?_, ?_, ?_⟩
  · intro l hl
    simp [get_user_lang, hl]
  · intro hl
    simp [get_user_lang, hl]
  · intro lc hlc hne p hp
    simp [detect_language_code, hlc, hne, hp]
  · intro lc hlc hne hp
    simp [detect_language_code, hlc, hne, hp]
  · intro hlc
    simp [detect_language_code, hlc]
  · intro h
    have hn : normalizeLang loaded defaultLang lang = defaultLang := by
      unfold normalizeLang
      rw [if_neg h]
    have hn2 : normalizeLang loaded defaultLang defaultLang = defaultLang := by
      unfold normalizeLang
      by_cases hd : defaultLang ∈ loaded
      · rw [if_pos hd]
      · rw [if_neg hd]
    simp [get_localized_by_lang, hn, hn2]
  · intro c2 bb he
    unfold get_localized_by_lang at he ⊢
    rcases hck : alookup (normalizeLang loaded defaultLang lang) cache with _ | b
    · rw [hck] at he
      obtain ⟨rfl, rfl⟩ := Prod.ext_iff.mp he
      simp [alookup_set_self]
    · rw [hck] at he
      obtain ⟨rfl, rfl⟩ := Prod.ext_iff.mp he
      simp [hck]

/-- Witness for `resolve_language_code`: a stored selection wins; the
hint "EN-us" detects "en"; the hint "az" falls back to "ru"; an unloaded
tag "kz" resolves to the default bundle; and a second lookup is served
from the updated cache. -/
theorem resolve_language_code_witness :
    get_user_lang [(2, "ru")] "ru" (some uEx) = "ru" ∧
    detect_language_code "ru" (some ⟨9, some "EN-us"⟩) = "en" ∧
    detect_language_code "ru" (some ⟨9, some "az"⟩) = "ru" ∧
    get_localized_by_lang ["ru", "en"] "ru" (fun t => t) [] "kz" =
      get_localized_by_lang ["ru", "en"] "ru" (fun t => t) [] "ru" ∧
    get_localized_by_lang ["ru", "en"] "ru" (fun t => t) [("ru", "ru")] "kz" =
      ([("ru", "ru")], "ru") :=
  ⟨(resolve_language_code ["ru", "en"] "ru" [(2, "ru")] uEx (fun t => t) [] "kz").1
      "ru" (by decide),
   (resolve_language_code [] "ru" [] ⟨9, some "EN-us"⟩ (fun t => t) [] "kz").2.2.1
      "EN-us" rfl (by decide) "en" (by decide),
   (resolve_language_code [] "ru" [] ⟨9, some "az"⟩ (fun t => t) [] "kz").2.2.2.1
      "az" rfl (by decide) (by decide),
   (resolve_language_code ["ru", "en"] "ru" [] uEx (fun t => t) [] "kz").2.2.2.2.2.1
      (by decide),
   (resolve_language_code ["ru", "en"] "ru" [] uEx (fun t => t) [("ru", "ru")]
      "kz").2.2.2.2.2.2 [("ru", "ru")] "ru" (by decide)⟩

/-! ### Claim C4 -/

theorem clear_pending_not_mem (s : SupportState) (key : Key) :
    key ∉ (clear_support_pending s key).pending := by
  unfold clear_support_pending
  rw [cancel_pending]
  intro hmem
  have h2 := (List.mem_filter.mp hmem).2
  simp at h2

/-- C4 (counterexample): a text message does not always reach Idle with
one forwarded payload.  At the concrete state `bEx` (key `(1, 2)`
awaiting a support message), the non-trigger text "My vpn broke" whose
admin-chat forward (`await bot.send_message(admin_chat_id, ...)`,
main.py 687) raises leaves the key in `Support.waiting_message` and
forwards nothing — the unguarded exception aborts the handler before
`state.clear()` — even though the pending flag was already cleared. -/
theorem support_forward_failure_cex :
    alookup ((1 : Int), (2 : Int))
      (dispatch_support 3 ["cancel"] bEx 1 uEx none "ru" (some "My vpn broke")
        false).fsm = some FsmState.waitingMessage ∧
    (dispatch_support 3 ["cancel"] bEx 1 uEx none "ru" (some "My vpn broke")
      false).forwards = [] ∧
    ((1 : Int), (2 : Int)) ∉
      (dispatch_support 3 ["cancel"] bEx 1 uEx none "ru" (some "My vpn broke")
        false).sup.pending := by
  decide

/-- C4 (amended): the support-start callback always moves the key to
`Support.waiting_message` — the FSM state is set before the prompt send,
so this holds for either send outcome (in particular from Idle).  While
awaiting, a text message that is not a cancel trigger always clears the
pending flag; when the admin-chat forward is delivered, the key moves to
Idle and exactly one escalation payload is forwarded; when the forward
raises, the handler aborts after the pending-clear but before
`state.clear()`, so the key remains `AwaitingSupportMessage` and no
payload reaches the escalation sink.  (A cancel-trigger text is the
spec's separate cancel transition, routed to `support_cancel`.) -/
theorem support_flow_transitions (maxR : Nat) (triggers : List String) (b : BotState)
    (chatId : Int) (u : TgUser) (username : Option String) (defaultLang : String)
    (text : String) :
    (∀ promptOk,
      alookup (chatId, u.id)
        (support_start_callback maxR b chatId u defaultLang promptOk).fsm =
        some FsmState.waitingMessage) ∧
    (casefold text ∉ triggers →
      (alookup (chatId, u.id)
        (dispatch_support maxR triggers b chatId u username defaultLang (some text)
          true).fsm = none ∧
       (dispatch_support maxR triggers b chatId u username defaultLang (some text)
         true).forwards = b.forwards ++ [⟨u.id, username, some text⟩] ∧
       ∀ sendOk, (chatId, u.id) ∉
         (dispatch_support maxR triggers b chatId u username defaultLang (some text)
           sendOk).sup.pending) ∧
      (dispatch_support maxR triggers b chatId u username defaultLang (some text)
        false).fsm = b.fsm ∧
      (dispatch_support maxR triggers b chatId u username defaultLang (some text)
        false).forwards = b.forwards) := by
  constructor
  · intro promptOk
    cases promptOk
    · exact alookup_set_self _ _ _
    · exact alookup_set_self _ _ _
  · intro hnc
    have hd : ∀ sendOk,
        dispatch_support maxR triggers b chatId u username defaultLang (some text)
          sendOk =
        support_message maxR b chatId u username defaultLang (some text) sendOk := by
      intro sendOk
      show (if casefold text ∈ triggers then support_cancel b chatId u
        else support_message maxR b chatId u username defaultLang (some text) sendOk) =
        support_message maxR b chatId u username defaultLang (some text) sendOk
      rw [if_neg hnc]
    refine ⟨⟨?_, ?_, ?_⟩, ?_, ?_⟩
    · rw [hd true]
      exact alookup_erase_self _ _
    · rw [hd true]
      rfl
    · intro sendOk
      rw [hd sendOk]
      cases sendOk
      · exact clear_pending_not_mem b.sup (chatId, u.id)
      · exact clear_pending_not_mem b.sup (chatId, u.id)
    · rw [hd false]
      rfl
    · rw [hd false]
      rfl

/-- Witness for `support_flow_transitions` at the concrete state `bEx`
with the non-trigger text "My vpn broke", exercising both forward
outcomes and both prompt outcomes. -/
theorem support_flow_transitions_witness :
    alookup ((1 : Int), (2 : Int)) (support_start_callback 3 bEx 1 uEx "ru" true).fsm =
      some FsmState.waitingMessage ∧
    alookup ((1 : Int), (2 : Int)) (support_start_callback 3 bEx 1 uEx "ru" false).fsm =
      some FsmState.waitingMessage ∧
    alookup ((1 : Int), (2 : Int))
      (dispatch_support 3 ["cancel"] bEx 1 uEx none "ru" (some "My vpn broke")
        true).fsm = none ∧
    (dispatch_support 3 ["cancel"] bEx 1 uEx none "ru" (some "My vpn broke")
      true).forwards = bEx.forwards ++ [⟨2, none, some "My vpn broke"⟩] ∧
    ((1 : Int), (2 : Int)) ∉
      (dispatch_support 3 ["cancel"] bEx 1 uEx none "ru" (some "My vpn broke")
        true).sup.pending ∧
    (dispatch_support 3 ["cancel"] bEx 1 uEx none "ru" (some "My vpn broke")
      false).fsm = bEx.fsm ∧
    (dispatch_support 3 ["cancel"] bEx 1 uEx none "ru" (some "My vpn broke")
      false).forwards = bEx.forwards := by
  obtain ⟨h1, h2⟩ :=
    support_flow_transitions 3 ["cancel"] bEx 1 uEx none "ru" "My vpn broke"
  obtain ⟨⟨h3, h4, h5⟩, h6, h7⟩ := h2 (by decide)
  exact ⟨h1 true, h1 false, h3, h4, h5 true, h6, h7⟩

end FaqBot
